import Mathlib

/-!
Verification of the streaming core of the oanda Go client library.

The definitions below are a shallow embedding of the source files:
  - part_014 (MessageServer, TimedReader, StreamMessage.UnmarshalJSON,
    readMessages with its newReader backoff loop),
  - part_003 (pricesServer.dispatchTicks with its drop-oldest select),
  - prices.go (tickChans, pricesServer.handleMessage, initServer),
  - transactions.go (eventChans, eventServer.initServer, handleMessages),
  - decode.go (apiErrorFromMap), streaming.go (runDispatchLoop).

JSON values are modelled by an inductive type; Go maps
(map[string]json.RawMessage and the routing tables) are modelled as
association lists whose keys are distinct, iterated in list order.
Durations are in whole seconds (backoff) and whole seconds of idle gap
(stall timer); Go time.Duration arithmetic on these values is exact, so
Nat arithmetic is a faithful image.
-/

namespace Oanda


/-- Model of a JSON value (only the shapes the streaming protocol uses). -/
inductive Json where
  | null : Json
  | num (n : Int) : Json
  | str (s : String) : Json
  | obj (fields : List (String × Json)) : Json

/-- Association-list lookup: the model of indexing a Go map. -/
def alookup {κ β : Type} [DecidableEq κ] (k : κ) : List (κ × β) → Option β
  | [] => none
  | (k', v) :: rest => if k' = k then some v else alookup k rest

/-- Association-list update-or-append: the model of a Go map assignment. -/
def aset {κ β : Type} [DecidableEq κ] (k : κ) (v : β) : List (κ × β) → List (κ × β)
  | [] => [(k, v)]
  | (k', v') :: rest => if k' = k then (k, v) :: rest else (k', v') :: aset k v rest

/-- A decoded JSON object at top level, the model of the
map[string]json.RawMessage that StreamMessage.UnmarshalJSON builds. -/
abbrev RawObj := List (String × Json)

/-- ApiError from decode.go: Code, Message, MoreInfo. -/
structure ApiError where
  code : Int
  message : String
  moreInfo : String
deriving DecidableEq

/-- StreamMessage from part_014: the frame discriminator and its raw payload. -/
structure StreamMessage where
  msgType : String
  rawMessage : Json

/-- The two shapes of error that StreamMessage.UnmarshalJSON can return:
a typed ApiError value, or any other (plain) unmarshalling error. -/
inductive DecodeErr where
  | api (e : ApiError) : DecodeErr
  | other : DecodeErr
deriving DecidableEq

/-- Model of a json.Unmarshal of a raw field into a Go string where the
source DISCARDS the error (part_014 lines 84-85 ignore the return value):
a missing or non-string field leaves the zero value "". -/
def getStrField (k : String) (m : RawObj) : String :=
  match alookup k m with
  | some (Json.str s) => s
  | _ => ""

/-- The fallthrough loop of StreamMessage.UnmarshalJSON: iterate over the
map bindings, overwriting Type and RawMessage each time, so the final
value is the last binding in iteration order (modelled as list order).
An empty object leaves the zero StreamMessage. -/
def lastBinding : RawObj → StreamMessage → StreamMessage
  | [], msg => msg
  | (k, v) :: rest, _ => lastBinding rest ⟨k, v⟩

/-- StreamMessage.UnmarshalJSON from part_014 lines 73-95: if the object
has a "code" key, unmarshal it as an int (a non-number is a plain
unmarshal error); when the code is non-zero return an ApiError built from
the "message" and "moreInfo" fields (their unmarshal errors are ignored);
when the code is zero, or there is no "code" key, fall through to the
binding loop that picks the frame kind and payload. -/
def streamUnmarshal (m : RawObj) : Except DecodeErr StreamMessage :=
  match alookup "code" m with
  | some (Json.num n) =>
      if n ≠ 0 then
        Except.error (DecodeErr.api ⟨n, getStrField "message" m, getStrField "moreInfo" m⟩)
      else
        Except.ok (lastBinding m ⟨"", Json.null⟩)
  | some _ => Except.error DecodeErr.other
  | none => Except.ok (lastBinding m ⟨"", Json.null⟩)

/-- Stall timeout in seconds: part_014 wraps every response body in
NewTimedReader(rsp.Body, defaultStallTimeout) with defaultStallTimeout = 10s. -/
def stallTimeout : Nat := 10

/-- Backoff cap in seconds: maxDelay = 5 * time.Minute. -/
def maxDelay : Nat := 300

/-- defaultBufferSize = 5, the capacity of each per-partition channel. -/
def defaultBufferSize : Nat := 5

/-- One blocking read on the TimedReader: the number of seconds until the
next frame is available, paired with the decoded JSON object.  TimedReader
arms a timer with the full Timeout at the start of every Read (reset on
each call) and stops it when the read returns, so only the gap of the
current read is measured against the timeout. -/
abbrev TimedRead := Nat × RawObj

/-- How the inner decode loop of readMessages leaves a connection. -/
inductive ConnEnd where
  | fatal (e : ApiError) : ConnEnd
  | brk : ConnEnd
deriving DecidableEq

/-- Observable trace of one connection: the data frames pushed to msgC,
the heartbeat times pushed to hbC, and how the loop ended. -/
structure ConnTrace where
  dispatched : List StreamMessage
  heartbeats : List String
  connEnd : ConnEnd

/-- Model of unmarshalling a heartbeat payload into struct{Time time.Time}:
a non-object payload fails (the heartbeat is skipped); an object with no
"time" field succeeds with the zero time; a non-string "time" fails. -/
def heartbeatTime : Json → Option String
  | Json.obj fs =>
      match alookup "time" fs with
      | some (Json.str t) => some t
      | none => some ""
      | some _ => none
  | _ => none

/-- The inner decode loop of readMessages (part_014 lines 223-257) over one
connection.  An empty read list is end-of-stream: Decode returns a plain
error and the loop breaks (reconnect).  A read whose gap reaches the stall
timeout fires the TimedReader timer, which closes the body; the pending
Decode then fails with a plain read error and the loop breaks.  A frame
that UnmarshalJSON turns into an ApiError is returned (the session ends);
any other decode error breaks the loop.  A "heartbeat" frame is forwarded
to hbC when its time unmarshals; a "disconnect" frame cancels the in-flight
request, so the next read fails and the loop breaks; every other frame is
sent to msgC. -/
def processConn : List TimedRead → ConnTrace
  | [] => ⟨[], [], ConnEnd.brk⟩
  | (gap, o) :: rest =>
      if stallTimeout ≤ gap then ⟨[], [], ConnEnd.brk⟩
      else
        match streamUnmarshal o with
        | Except.error (DecodeErr.api e) => ⟨[], [], ConnEnd.fatal e⟩
        | Except.error DecodeErr.other => ⟨[], [], ConnEnd.brk⟩
        | Except.ok msg =>
            if msg.msgType = "heartbeat" then
              let t := processConn rest
              match heartbeatTime msg.rawMessage with
              | some hb => ⟨t.dispatched, hb :: t.heartbeats, t.connEnd⟩
              | none => t
            else if msg.msgType = "disconnect" then ⟨[], [], ConnEnd.brk⟩
            else
              let t := processConn rest
              ⟨msg :: t.dispatched, t.heartbeats, t.connEnd⟩

/-- Environment script for one call to Client.Do inside newReader:
either the connect attempt fails with a transport error, or it yields a
response body whose reads follow the given schedule. -/
inductive DoOutcome where
  | fail : DoOutcome
  | ok (reads : List TimedRead) : DoOutcome

/-- The newReader closure of part_014 readMessages (lines 195-214).
Starting from delay d (the caller passes 1s), repeatedly: if the run flag
is down, give up at once without touching the script; otherwise consume
one Do outcome.  A successful Do returns the reader.  After a failed Do
the loop gives up if d has reached maxDelay, else it sleeps d seconds,
doubles d and retries.  Because the Go code shadows the named return err
with := inside the loop, newReader never reports the transport error;
only the reader (or nil) comes back.  Returns the list of sleeps
performed, the reader obtained (if any) and the unconsumed script. -/
def newReaderLoop (run : Bool) (d : Nat) :
    List DoOutcome → List Nat × Option (List TimedRead) × List DoOutcome
  | [] => ([], none, [])
  | o :: rest =>
      if run then
        match o with
        | DoOutcome.ok reads => ([], some reads, rest)
        | DoOutcome.fail =>
            if maxDelay ≤ d then ([], none, rest)
            else
              let p := newReaderLoop run (2 * d) rest
              (d :: p.1, p.2.1, p.2.2)
      else ([], none, o :: rest)

/-- Observable trace of one whole readMessages call. -/
structure SessionTrace where
  sleeps : List (List Nat)
  dispatched : List StreamMessage
  heartbeats : List String
  result : Option ApiError
  leftover : List DoOutcome

/-- One peeling of the outer loop of readMessages (part_014 lines
216-259), with the run flag held constant (no concurrent Stop during the
portion modelled; a session stopped before the call has run = false).
Each iteration calls newReader with the base delay 1s; a nil reader makes
readMessages return the (always nil, because of the shadowing) newReader
error; a fatal ApiError from the decode loop is returned at once, leaving
the rest of the script untouched; any other connection end loops back to
reconnect.  The fuel argument only bounds the recursion: newReaderLoop
consumes at least one scripted outcome whenever it yields a reader, so
any fuel above the script length gives the loop its exact behaviour
(readMessagesAux_fuel below). -/
def readMessagesAux (run : Bool) : Nat → List DoOutcome → SessionTrace
  | 0, outs => ⟨[], [], [], none, outs⟩
  | fuel + 1, outs =>
      match newReaderLoop run 1 outs with
      | (sl, none, rest) => ⟨[sl], [], [], none, rest⟩
      | (sl, some reads, rest) =>
          let c := processConn reads
          match c.connEnd with
          | ConnEnd.fatal e => ⟨[sl], c.dispatched, c.heartbeats, some e, rest⟩
          | ConnEnd.brk =>
              let t := readMessagesAux run fuel rest
              ⟨sl :: t.sleeps, c.dispatched ++ t.dispatched,
                c.heartbeats ++ t.heartbeats, t.result, t.leftover⟩

/-- readMessages itself: run the loop with enough fuel. -/
def readMessages (run : Bool) (outs : List DoOutcome) : SessionTrace :=
  readMessagesAux run (outs.length + 1) outs

/-- ConnectAndDispatch (part_014 lines 148-158) returns the error from
readMessages: some e models returning the fatal *ApiError, none models
returning nil. -/
def connectAndDispatch (run : Bool) (outs : List DoOutcome) : Option ApiError :=
  (readMessages run outs).result

/-- A read that reaches the decode loop as an ordinary data frame: it
arrives before its stall deadline, unmarshals cleanly, and is neither a
heartbeat nor a disconnect. -/
def isPlainData (r : TimedRead) : Bool :=
  decide (r.1 < stallTimeout) &&
    match streamUnmarshal r.2 with
    | Except.ok msg => !(msg.msgType == "heartbeat") && !(msg.msgType == "disconnect")
    | Except.error _ => false

/-- The StreamMessage a clean read decodes to. -/
def decodedMsg (r : TimedRead) : StreamMessage :=
  match streamUnmarshal r.2 with
  | Except.ok m => m
  | Except.error _ => ⟨"", Json.null⟩

/-- One insert of pricesServer.dispatchTicks (part_003 lines 412-423)
against a tick channel of capacity cap whose consumer is paused, with buf
the list of queued, unconsumed elements, oldest first.  The select tries
a non-blocking send, which is ready only when the buffer has free space;
otherwise the inner select tries a non-blocking receive, ready only when
the buffer is non-empty (it removes the oldest), and then the final
`tickCh <- tick` is a BLOCKING send.  part_003 init (line 321) creates
every tick channel with make(chan *instrumentTick) — unbuffered, so
cap = 0 (the DefaultChannelSize field only sizes the channel map at line
319).  At cap = 0 with no consumer neither select case is ever ready and
the final send blocks the producer forever: none.  With a buffer list no
longer than its capacity, the blocking case is exactly the
empty-and-unbuffered one. -/
def dispatchTickSend {α : Type} (cap : Nat) (buf : List α) (x : α) :
    Option (List α) :=
  if buf.length < cap then some (buf ++ [x])
  else
    match buf with
    | [] => none
    | _ :: rest => some (rest ++ [x])

/-- Routing a whole burst of ticks with the consumer paused: the buffer
contents, and the tick the producer is still blocked on (if any; once
blocked it stays blocked, so later ticks are never routed). -/
def dispatchTickBurst {α : Type} (cap : Nat) :
    List α → List α → List α × Option α
  | buf, [] => (buf, none)
  | buf, x :: xs =>
      match dispatchTickSend cap buf x with
      | some buf2 => dispatchTickBurst cap buf2 xs
      | none => (buf, some x)

/-- One insert of eventServer.handleMessages (transactions.go line 799):
a plain send evtC <- evt on a buffered channel.  With the consumer paused
the send blocks as soon as the buffer is full.  Routing a list of events
returns the buffer contents and, if the producer got stuck, the event it
is still blocked on (subsequent events are never routed). -/
def handleEventSends {α : Type} (cap : Nat) :
    List α → List α → List α × Option α
  | buf, [] => (buf, none)
  | buf, x :: xs =>
      if buf.length < cap then handleEventSends cap (buf ++ [x]) xs
      else (buf, some x)

/-- The tick routing table of prices.go: instrument ↦ channel, where none
models a nil channel (registered but not yet opened, or already closed)
and some q models an open channel whose buffer holds q. -/
abbrev TickChans := List (String × Option (List Json))

/-- The event routing table of transactions.go: accountId ↦ channel. -/
abbrev EventChans := List (Int × Option (List Json))

/-- Model of Go make([]T, n): a slice of n zero values of T. -/
def goMake {α : Type} (zero : α) (n : Nat) : List α := List.replicate n zero

/-- tickChans.Instruments (prices.go lines 112-120): the Go code does
instruments := make([]string, len(tc.m)) — a slice of len(m) empty
strings — and then APPENDS each map key in the range loop. -/
def tickChansInstruments (m : TickChans) : List String :=
  m.foldl (fun instruments p => instruments ++ [p.1]) (goMake "" m.length)

/-- eventChans.AccountIds (transactions.go lines 822-830): the same
make-then-append over accIds := make([]int, len(ec.m)). -/
def eventChansAccountIds (m : EventChans) : List Int :=
  m.foldl (fun accIds p => accIds ++ [p.1]) (goMake 0 m.length)

/-- eventServer.initServer (transactions.go lines 758-770): for every id
in AccountIds() — including the spurious zeros — allocate a fresh
buffered channel, store it under that id and spawn a worker.  Returns the
resulting table and the number of workers spawned. -/
def eventInitServer (m : EventChans) : EventChans × Nat :=
  ((eventChansAccountIds m).foldl (fun acc accId => aset accId (some []) acc) m,
    (eventChansAccountIds m).length)

/-- pricesServer.initServer (prices.go lines 215-227): the same loop over
Instruments() with string keys. -/
def pricesInitServer (m : TickChans) : TickChans × Nat :=
  ((tickChansInstruments m).foldl (fun acc instr => aset instr (some []) acc) m,
    (tickChansInstruments m).length)

/-- What decode.go jsonDecoder.Decode returns through apiErrorFromMap for
a *map[string]json.RawMessage target: nil, a non-nil *ApiError, or some
other non-nil error (from a failed json.Unmarshal of a field). -/
inductive MapDecodeRes where
  | noErr : MapDecodeRes
  | apiErr (e : ApiError) : MapDecodeRes
  | otherErr : MapDecodeRes
deriving DecidableEq

/-- Model of json.Unmarshal(data, &stringVar) where data is the raw value
found under a key, or nil when the key is absent: unmarshalling nil or a
non-string value fails. -/
def unmarshalStrField (v : Option Json) : Option String :=
  match v with
  | some (Json.str s) => some s
  | _ => none

/-- apiErrorFromMap (decode.go lines 106-123, the RawMessage branch): if
the map has a "code" key, unmarshal it as an int (failure is returned as
the error); when the code is non-zero also unmarshal "message" and
"moreInfo", RETURNING any unmarshal failure (absent keys index to nil and
fail); finally return the address of the ApiError — a non-nil error —
even when the code is 0.  Without a "code" key it returns nil. -/
def apiErrorFromMap (m : RawObj) : MapDecodeRes :=
  match alookup "code" m with
  | none => MapDecodeRes.noErr
  | some (Json.num n) =>
      if n ≠ 0 then
        match unmarshalStrField (alookup "message" m) with
        | none => MapDecodeRes.otherErr
        | some s =>
            match unmarshalStrField (alookup "moreInfo" m) with
            | none => MapDecodeRes.otherErr
            | some t => MapDecodeRes.apiErr ⟨n, s, t⟩
      else MapDecodeRes.apiErr ⟨0, "", ""⟩
  | some _ => MapDecodeRes.otherErr

/-- How streamServer.runDispatchLoop (streaming.go lines 74-89) reacts to
one Decode through the error-aware decoder: a *ApiError stops the server
and is returned (fatal); any other decode error makes the loop return nil
so that Run reconnects; no error means the frame is dispatched. -/
inductive LoopStep where
  | fatalStop (e : ApiError) : LoopStep
  | transportBreak : LoopStep
  | handled : LoopStep
deriving DecidableEq

def runDispatchStep (m : RawObj) : LoopStep :=
  match apiErrorFromMap m with
  | MapDecodeRes.apiErr e => LoopStep.fatalStop e
  | MapDecodeRes.otherErr => LoopStep.transportBreak
  | MapDecodeRes.noErr => LoopStep.handled

/-- Events of the shutdown of an event-stream session with one data
message m queued at stop time, numbered for the order model below.

0 stop        — Stop() flips runFlg (part_014 lines 161-166)
1 sendM       — readMessages sends m on the unbuffered msgC (line 236)
2 recvM       — eventServer.handleMessages receives m (transactions.go 781)
3 enqueue     — handleMessages sends m on the buffered evtC (line 799)
4 closeMsgC   — the deferred close(msgC) as readMessages returns (line 188)
5 cadReturn   — ConnectAndDispatch returns to the caller (line 157)
6 rangeEnd    — handleMessages sees msgC closed and leaves its loop
7 closeEvtC   — handleMessages closes each evtC (lines 805-811)
8 deliver     — the partition worker takes m from evtC and calls the
                user callback handleFn (transactions.go lines 763-767)
9 workerExit  — the worker leaves its range loop after evtC is closed -/
def evStop : Nat := 0

def evSendM : Nat := 1

def evRecvM : Nat := 2

def evEnqueue : Nat := 3

def evCloseMsgC : Nat := 4

def evCadReturn : Nat := 5

def evRangeEnd : Nat := 6

def evCloseEvtC : Nat := 7

def evDeliver : Nat := 8

def evWorkerExit : Nat := 9

/-- Every happens-before edge the source establishes between those
events: program order within each goroutine, the rendezvous on the
unbuffered msgC, the FIFO of the buffered evtC, and channel closes being
observed by range loops.  ConnectAndDispatch contains no join on the
dispatch goroutines (there is no WaitGroup in part_014 or
transactions.go), so no edge leads from any worker event to cadReturn. -/
def shutdownEdges : List (Nat × Nat) :=
  [(evStop, evCloseMsgC), (evSendM, evRecvM), (evRecvM, evCloseMsgC),
   (evRecvM, evEnqueue), (evCloseMsgC, evCadReturn), (evCloseMsgC, evRangeEnd),
   (evEnqueue, evRangeEnd), (evRangeEnd, evCloseEvtC), (evEnqueue, evDeliver),
   (evCloseEvtC, evWorkerExit), (evDeliver, evWorkerExit)]

/-- A possible execution: a linear order on the ten events that respects
every happens-before edge. -/
def validShutdownOrder (l : List Nat) : Prop :=
  List.Perm l (List.range 10) ∧ ∀ p ∈ shutdownEdges, l.indexOf p.1 < l.indexOf p.2

instance (l : List Nat) : Decidable (validShutdownOrder l) := by
  unfold validShutdownOrder; infer_instance

theorem alookup_aset_self {κ β : Type} [DecidableEq κ] (k : κ) (v : β)
    (m : List (κ × β)) : alookup k (aset k v m) = some v := by
  induction m with
  | nil => simp [alookup, aset]
  | cons p rest ih =>
      obtain ⟨k', v'⟩ := p
      by_cases hk : k' = k
      · simp [alookup, aset, hk]
      · simp [alookup, aset, hk, ih]

theorem alookup_aset_ne {κ β : Type} [DecidableEq κ] (k k' : κ) (v : β)
    (m : List (κ × β)) (h : k' ≠ k) :
    alookup k' (aset k v m) = alookup k' m := by
  have hne : ¬ k = k' := fun h2 => h h2.symm
  induction m with
  | nil => simp [alookup, aset, hne]
  | cons p rest ih =>
      obtain ⟨k0, v0⟩ := p
      by_cases hk : k0 = k
      · subst hk
        simp [alookup, aset, hne]
      · simp only [aset, if_neg hk]
        by_cases hk' : k0 = k'
        · simp [alookup, hk']
        · simp [alookup, hk', ih]

theorem alookup_foldl_aset_mem {κ β : Type} [DecidableEq κ] (v : β)
    (ids : List κ) :
    ∀ (m : List (κ × β)) (k : κ), k ∈ ids →
      alookup k (ids.foldl (fun acc i => aset i v acc) m) = some v := by
  induction ids with
  | nil => intro m k hk; simp at hk
  | cons i ids ih =>
      intro m k hk
      simp only [List.foldl_cons]
      by_cases hmem : k ∈ ids
      · exact ih (aset i v m) k hmem
      · have hki : k = i := by
          rcases List.mem_cons.mp hk with h1 | h2
          · exact h1
          · exact absurd h2 hmem
        subst hki
        have hpres : ∀ (ids2 : List κ) (m2 : List (κ × β)), k ∉ ids2 →
            alookup k (ids2.foldl (fun acc i => aset i v acc) m2) = alookup k m2 := by
          intro ids2
          induction ids2 with
          | nil => intro m2 _; rfl
          | cons j ids2 ih2 =>
              intro m2 hnot
              simp only [List.foldl_cons]
              rw [ih2 (aset j v m2) (fun h2 => hnot (List.mem_cons_of_mem j h2))]
              exact alookup_aset_ne j k v m2 (fun h2 => hnot (h2 ▸ List.mem_cons_self j ids2))
        rw [hpres ids (aset k v m) hmem, alookup_aset_self]

theorem foldl_append_singleton {α β : Type} (f : α → β) (l : List α) :
    ∀ (acc : List β), l.foldl (fun a x => a ++ [f x]) acc = acc ++ l.map f := by
  induction l with
  | nil => intro acc; simp
  | cons x l ih => intro acc; simp [ih]

theorem newReaderLoop_rest_length (run : Bool) (d : Nat) (outs : List DoOutcome) :
    (newReaderLoop run d outs).2.2.length ≤ outs.length ∧
    ((newReaderLoop run d outs).2.1.isSome = true →
      (newReaderLoop run d outs).2.2.length < outs.length) := by
  induction outs generalizing d with
  | nil => simp [newReaderLoop]
  | cons o rest ih =>
      by_cases hrun : run
      · cases o with
        | ok reads => simp [newReaderLoop, hrun]
        | fail =>
            by_cases hd : maxDelay ≤ d
            · simp [newReaderLoop, hrun, hd]
            · have hih := ih (2 * d)
              subst hrun
              simp only [newReaderLoop, if_true, hd, if_false, List.length_cons]
              exact ⟨Nat.le_succ_of_le hih.1, fun h => Nat.lt_succ_of_lt (hih.2 h)⟩
      · simp [newReaderLoop, hrun]

theorem newReaderLoop_fails_then_ok (k : Nat) :
    ∀ (d : Nat) (reads : List TimedRead) (rest : List DoOutcome),
      (∀ i, i < k → d * 2 ^ i < maxDelay) →
      newReaderLoop true d (List.replicate k DoOutcome.fail ++ DoOutcome.ok reads :: rest)
        = ((List.range k).map (fun i => d * 2 ^ i), some reads, rest) := by
  induction k with
  | zero => intro d reads rest _; simp [newReaderLoop]
  | succ k ih =>
      intro d reads rest hlt
      have hd : d < maxDelay := by
        have := hlt 0 (Nat.succ_pos k)
        simpa using this
      rw [List.replicate_succ, List.cons_append]
      show newReaderLoop true d (DoOutcome.fail ::
        (List.replicate k DoOutcome.fail ++ DoOutcome.ok reads :: rest)) = _
      rw [newReaderLoop]
      rw [if_pos rfl, if_neg (by omega)]
      rw [ih (2 * d) reads rest (by
        intro i hi
        have := hlt (i + 1) (by omega)
        calc 2 * d * 2 ^ i = d * 2 ^ (i + 1) := by ring
        _ < maxDelay := this)]
      simp only [List.range_succ_eq_map, List.map_cons, List.map_map]
      have h0 : d * 2 ^ 0 = d := by ring
      have hmap : List.map (fun i => 2 * d * 2 ^ i) (List.range k)
          = List.map ((fun i => d * 2 ^ i) ∘ Nat.succ) (List.range k) := by
        apply List.map_congr_left
        intro i _
        simp only [Function.comp_apply, pow_succ]
        ring
      rw [h0, hmap]

theorem newReaderLoop_ten_fails (rest : List DoOutcome) :
    newReaderLoop true 1 (List.replicate 10 DoOutcome.fail ++ rest)
      = ([1, 2, 4, 8, 16, 32, 64, 128, 256], none, rest) := by
  simp only [List.replicate_succ, List.replicate_zero, List.nil_append, List.cons_append]
  rw [newReaderLoop]
  norm_num [maxDelay]
  rw [newReaderLoop]
  norm_num [maxDelay]
  rw [newReaderLoop]
  norm_num [maxDelay]
  rw [newReaderLoop]
  norm_num [maxDelay]
  rw [newReaderLoop]
  norm_num [maxDelay]
  rw [newReaderLoop]
  norm_num [maxDelay]
  rw [newReaderLoop]
  norm_num [maxDelay]
  rw [newReaderLoop]
  norm_num [maxDelay]
  rw [newReaderLoop]
  norm_num [maxDelay]
  rw [newReaderLoop]
  norm_num [maxDelay]

theorem readMessagesAux_fuel (run : Bool) :
    ∀ (f g : Nat) (outs : List DoOutcome), outs.length < f → outs.length < g →
      readMessagesAux run f outs = readMessagesAux run g outs := by
  intro f
  induction f with
  | zero => intro g outs hf; omega
  | succ f ih =>
      intro g outs hf hg
      cases g with
      | zero => omega
      | succ g =>
          show readMessagesAux run (f + 1) outs = readMessagesAux run (g + 1) outs
          unfold readMessagesAux
          have hlen := newReaderLoop_rest_length run 1 outs
          cases hnr : newReaderLoop run 1 outs with
          | mk sl p =>
              cases p with
              | mk ro rest =>
                  cases ro with
                  | none => simp
                  | some reads =>
                      rw [hnr] at hlen
                      have hrest : rest.length < outs.length := hlen.2 rfl
                      simp only []
                      cases (processConn reads).connEnd with
                      | fatal e => simp
                      | brk => rw [ih g rest (by omega) (by omega)]

theorem readMessages_def (run : Bool) (outs : List DoOutcome) :
    readMessages run outs =
      match newReaderLoop run 1 outs with
      | (sl, none, rest) => ⟨[sl], [], [], none, rest⟩
      | (sl, some reads, rest) =>
          let c := processConn reads
          match c.connEnd with
          | ConnEnd.fatal e => ⟨[sl], c.dispatched, c.heartbeats, some e, rest⟩
          | ConnEnd.brk =>
              let t := readMessages run rest
              ⟨sl :: t.sleeps, c.dispatched ++ t.dispatched,
                c.heartbeats ++ t.heartbeats, t.result, t.leftover⟩ := by
  show readMessagesAux run (outs.length + 1) outs = _
  conv_lhs => rw [readMessagesAux]
  have hlen := newReaderLoop_rest_length run 1 outs
  cases hnr : newReaderLoop run 1 outs with
  | mk sl p =>
      cases p with
      | mk ro rest =>
          cases ro with
          | none => simp
          | some reads =>
              rw [hnr] at hlen
              have hrest : rest.length < outs.length := hlen.2 rfl
              simp only []
              cases (processConn reads).connEnd with
              | fatal e => simp
              | brk =>
                  rw [readMessagesAux_fuel run outs.length (rest.length + 1) rest
                    (by omega) (by omega)]
                  rfl

theorem newReaderLoop_stopped (outs : List DoOutcome) :
    newReaderLoop false 1 outs = ([], none, outs) := by
  cases outs <;> simp [newReaderLoop]

theorem readMessages_stopped (outs : List DoOutcome) :
    readMessages false outs = ⟨[[]], [], [], none, outs⟩ := by
  rw [readMessages_def, newReaderLoop_stopped]

theorem readMessages_conn_fatal (reads : List TimedRead) (rest : List DoOutcome)
    (e : ApiError) (h : (processConn reads).connEnd = ConnEnd.fatal e) :
    readMessages true (DoOutcome.ok reads :: rest) =
      ⟨[[]], (processConn reads).dispatched, (processConn reads).heartbeats,
        some e, rest⟩ := by
  rw [readMessages_def]
  show (match (processConn reads).connEnd with
    | ConnEnd.fatal e => (⟨[[]], (processConn reads).dispatched,
        (processConn reads).heartbeats, some e, rest⟩ : SessionTrace)
    | ConnEnd.brk =>
        let t := readMessages true rest
        ⟨[] :: t.sleeps, (processConn reads).dispatched ++ t.dispatched,
          (processConn reads).heartbeats ++ t.heartbeats, t.result, t.leftover⟩) = _
  rw [h]

theorem readMessages_conn_brk (reads : List TimedRead) (rest : List DoOutcome)
    (h : (processConn reads).connEnd = ConnEnd.brk) :
    readMessages true (DoOutcome.ok reads :: rest) =
      ⟨[] :: (readMessages true rest).sleeps,
        (processConn reads).dispatched ++ (readMessages true rest).dispatched,
        (processConn reads).heartbeats ++ (readMessages true rest).heartbeats,
        (readMessages true rest).result, (readMessages true rest).leftover⟩ := by
  rw [readMessages_def]
  show (match (processConn reads).connEnd with
    | ConnEnd.fatal e => (⟨[[]], (processConn reads).dispatched,
        (processConn reads).heartbeats, some e, rest⟩ : SessionTrace)
    | ConnEnd.brk =>
        let t := readMessages true rest
        ⟨[] :: t.sleeps, (processConn reads).dispatched ++ t.dispatched,
          (processConn reads).heartbeats ++ t.heartbeats, t.result, t.leftover⟩) = _
  rw [h]

theorem processConn_plain_cons (r : TimedRead) (tail : List TimedRead)
    (h : isPlainData r = true) :
    processConn (r :: tail) =
      ⟨decodedMsg r :: (processConn tail).dispatched,
        (processConn tail).heartbeats, (processConn tail).connEnd⟩ := by
  obtain ⟨g, o⟩ := r
  unfold isPlainData at h
  simp only [Bool.and_eq_true, decide_eq_true_eq] at h
  obtain ⟨hg, hrest⟩ := h
  cases hdec : streamUnmarshal o with
  | error err => rw [hdec] at hrest; simp at hrest
  | ok msg =>
      rw [hdec] at hrest
      simp only [Bool.and_eq_true, Bool.not_eq_true', beq_eq_false_iff_ne] at hrest
      have hstep : processConn ((g, o) :: tail) =
          ⟨msg :: (processConn tail).dispatched, (processConn tail).heartbeats,
            (processConn tail).connEnd⟩ := by
        conv_lhs => rw [processConn]
        rw [if_neg (by omega), hdec]
        simp [hrest.1, hrest.2]
      rw [hstep]
      unfold decodedMsg
      rw [hdec]

theorem processConn_plain_append (pre rest : List TimedRead)
    (h : pre.all isPlainData = true) :
    processConn (pre ++ rest) =
      ⟨pre.map decodedMsg ++ (processConn rest).dispatched,
        (processConn rest).heartbeats, (processConn rest).connEnd⟩ := by
  induction pre with
  | nil => simp
  | cons r pre ih =>
      simp only [List.all_cons, Bool.and_eq_true] at h
      rw [List.cons_append, processConn_plain_cons r (pre ++ rest) h.1, ih h.2]
      simp

theorem processConn_plain_all (reads : List TimedRead)
    (h : reads.all isPlainData = true) :
    processConn reads = ⟨reads.map decodedMsg, [], ConnEnd.brk⟩ := by
  have h2 := processConn_plain_append reads [] h
  simpa only [List.append_nil, processConn] using h2

theorem processConn_stall (g : Nat) (o : RawObj) (tail : List TimedRead)
    (h : stallTimeout ≤ g) :
    processConn ((g, o) :: tail) = ⟨[], [], ConnEnd.brk⟩ := by
  unfold processConn
  rw [if_pos h]

theorem streamUnmarshal_nonzero_code (o : RawObj) (n : Int)
    (hcode : alookup "code" o = some (Json.num n)) (hn : n ≠ 0) :
    streamUnmarshal o = Except.error (DecodeErr.api
      ⟨n, getStrField "message" o, getStrField "moreInfo" o⟩) := by
  unfold streamUnmarshal
  rw [hcode]
  simp [hn]

theorem processConn_fatal_head (g : Nat) (o : RawObj) (e : ApiError)
    (tail : List TimedRead) (hg : g < stallTimeout)
    (h : streamUnmarshal o = Except.error (DecodeErr.api e)) :
    processConn ((g, o) :: tail) = ⟨[], [], ConnEnd.fatal e⟩ := by
  unfold processConn
  rw [if_neg (by omega), h]

theorem processConn_disconnect_head (g : Nat) (o : RawObj) (p : Json)
    (tail : List TimedRead) (hg : g < stallTimeout)
    (h : streamUnmarshal o = Except.ok ⟨"disconnect", p⟩) :
    processConn ((g, o) :: tail) = ⟨[], [], ConnEnd.brk⟩ := by
  unfold processConn
  rw [if_neg (by omega), h]
  simp

theorem handleEventSends_blocks {α : Type} (cap : Nat) :
    ∀ (msgs buf : List α), buf.length ≤ cap → cap < buf.length + msgs.length →
      handleEventSends cap buf msgs =
        ((buf ++ msgs).take cap, (buf ++ msgs).get? cap) := by
  intro msgs
  induction msgs with
  | nil => intro buf hb hlt; simp at hlt; omega
  | cons x xs ih =>
      intro buf hb hlt
      simp only [List.length_cons] at hlt
      by_cases hfull : buf.length < cap
      · rw [handleEventSends, if_pos hfull]
        have := ih (buf ++ [x]) (by simp; omega) (by simp; omega)
        rw [this]
        simp
      · have heq : buf.length = cap := by omega
        rw [handleEventSends, if_neg hfull]
        have ht : (buf ++ x :: xs).take cap = buf := by
          rw [← heq]
          exact List.take_left buf (x :: xs)
        have hg : (buf ++ x :: xs).get? cap = some x := by
          rw [← heq, List.get?_append_right (Nat.le_refl _)]
          simp
        rw [ht, hg]

/-- Claim C1, counterexample.  The claim says every PartitionQueue —
citing eventServer.initServer and handleMessages — evicts the oldest
element on overflow and never blocks the producer, so after 6 inserts
into a capacity-5 queue it should hold the 5 most recent messages
[2,3,4,5,6].  The eventServer routes with a plain blocking channel send
(transactions.go line 799): with the worker paused the queue holds the 5
OLDEST messages [1,2,3,4,5] and the producer is blocked on message 6. -/
theorem event_queue_blocking_counterexample :
    handleEventSends defaultBufferSize ([] : List Nat) [1, 2, 3, 4, 5, 6]
        = ([1, 2, 3, 4, 5], some 6)
    ∧ ([1, 2, 3, 4, 5] == [2, 3, 4, 5, 6]) = false := ⟨rfl, rfl⟩

/-- Claim C1, amended.  Neither dispatcher delivers the claimed
drop-oldest, never-blocking behaviour.  The eventServer (cited by the
claim) performs plain blocking sends on its capacity-5 channels: after
N > C inserts with no consumption the queue holds the C OLDEST messages
in insertion order and the producer is blocked on the (C+1)-th.  The
prices dispatcher of part_003 contains a drop-oldest select — an insert
into a full, non-empty channel buffer removes the oldest and admits the
newest — but its tick channels are created UNBUFFERED (capacity 0, line
321), so with no consumption neither select case is ever ready and the
producer blocks on the very first insert, with nothing queued. -/
theorem queue_overflow_policy {α : Type} (cap : Nat) (msgs : List α) :
    (cap < msgs.length →
        handleEventSends cap ([] : List α) msgs = (msgs.take cap, msgs.get? cap))
    ∧ dispatchTickBurst 0 ([] : List α) msgs = ([], msgs.head?)
    ∧ (∀ (b : α) (bs : List α) (x : α), cap ≤ (b :: bs).length →
        dispatchTickSend cap (b :: bs) x = some (bs ++ [x])) := by
  refine ⟨?_, ?_, ?_⟩
  · intro hlt
    have h := handleEventSends_blocks cap msgs [] (by simp) (by simpa using hlt)
    simpa using h
  · cases msgs with
    | nil => rfl
    | cons x xs => rfl
  · intro b bs x hfull
    unfold dispatchTickSend
    rw [if_neg (by simp only [List.length_cons] at hfull ⊢; omega)]

theorem queue_overflow_policy_witness :
    5 < 6
    ∧ handleEventSends 5 ([] : List Nat) [1, 2, 3, 4, 5, 6] = ([1, 2, 3, 4, 5], some 6)
    ∧ dispatchTickBurst 0 ([] : List Nat) [1, 2, 3, 4, 5, 6] = ([], some 1)
    ∧ dispatchTickSend 5 [1, 2, 3, 4, 5] 9 = some [2, 3, 4, 5, 9] := by
  have h := queue_overflow_policy 5 [1, 2, 3, 4, 5, 6]
  exact ⟨by decide, h.1 (by decide), h.2.1,
    h.2.2 1 [2, 3, 4, 5] 9 (by decide)⟩

/-- Claim C3, counterexample.  After k = 10 consecutive connect failures
of a never-stopped session, the claim demands a slept delay of
min(1s * 2^9, 5min) = 300s followed by an 11th connect attempt, retrying
until the session is stopped.  The code instead gives up: newReader
breaks out with a nil reader once the doubled delay reaches maxDelay, so
the sleeps stop at 256s, the scripted 11th attempt is never consumed
(leftover), and readMessages returns nil. -/
theorem backoff_gives_up_counterexample :
    readMessages true (List.replicate 10 DoOutcome.fail ++ [DoOutcome.ok []])
        = ⟨[[1, 2, 4, 8, 16, 32, 64, 128, 256]], [], [], none, [DoOutcome.ok []]⟩
    ∧ ([1, 2, 4, 8, 16, 32, 64, 128, 256].contains maxDelay) = false := ⟨rfl, rfl⟩

/-- Claim C3, amended.  For 1 ≤ k ≤ 9 consecutive connect failures the
delay slept before the (k+1)-th attempt is 1s * 2^(k-1), which equals
min(1s * 2^(k-1), 5min) because every such delay is below the cap; the
sleeps for the whole run are [2^0, ..., 2^(k-1)].  At the 10th
consecutive failure the supervisor stops retrying (the 5-minute cap is
never slept and no further attempt is made) and readMessages returns.
After any successful connection the next reconnect starts again from the
1s base delay. -/
theorem backoff_growth (k : Nat) (hk1 : 1 ≤ k) (hk9 : k ≤ 9)
    (reads : List TimedRead) (rest : List DoOutcome) :
    newReaderLoop true 1 (List.replicate k DoOutcome.fail ++ DoOutcome.ok reads :: rest)
        = ((List.range k).map (fun i => 2 ^ i), some reads, rest)
    ∧ (∀ i, i < k → 2 ^ i = min (2 ^ i) maxDelay)
    ∧ (∀ rest2 : List DoOutcome,
        newReaderLoop true 1 (List.replicate 10 DoOutcome.fail ++ rest2)
          = ([1, 2, 4, 8, 16, 32, 64, 128, 256], none, rest2))
    ∧ (∀ (reads2 : List TimedRead) (rest2 : List DoOutcome),
        (processConn reads2).connEnd = ConnEnd.brk →
        (readMessages true (DoOutcome.ok reads2 :: rest2)).sleeps
          = [] :: (readMessages true rest2).sleeps) := by
  refine ⟨?_, ?_, ?_, ?_⟩
  · have h := newReaderLoop_fails_then_ok k 1 reads rest (by
      intro i hi
      have h8 : (2 : Nat) ^ i ≤ 2 ^ 8 :=
        Nat.pow_le_pow_right (by norm_num) (by omega)
      have : (2 : Nat) ^ 8 = 256 := by norm_num
      simp only [one_mul, maxDelay]
      omega)
    simpa [one_mul] using h
  · intro i hi
    have h8 : (2 : Nat) ^ i ≤ 2 ^ 8 :=
      Nat.pow_le_pow_right (by norm_num) (by omega)
    have h256 : (2 : Nat) ^ 8 = 256 := by norm_num
    have hle : (2 : Nat) ^ i ≤ maxDelay := by simp only [maxDelay]; omega
    exact (Nat.min_eq_left hle).symm
  · exact newReaderLoop_ten_fails
  · intro reads2 rest2 hbrk
    rw [readMessages_conn_brk reads2 rest2 hbrk]

theorem backoff_growth_witness :
    (1 ≤ 3 ∧ 3 ≤ 9)
    ∧ newReaderLoop true 1 (List.replicate 3 DoOutcome.fail ++ DoOutcome.ok [] :: [])
        = ([1, 2, 4], some [], [])
    ∧ 2 ^ 2 = min (2 ^ 2) maxDelay
    ∧ newReaderLoop true 1 (List.replicate 10 DoOutcome.fail ++ [])
        = ([1, 2, 4, 8, 16, 32, 64, 128, 256], none, [])
    ∧ (readMessages true (DoOutcome.ok [] :: [])).sleeps
        = [] :: (readMessages true []).sleeps := by
  have h := backoff_growth 3 (by decide) (by decide) [] []
  exact ⟨⟨by decide, by decide⟩, h.1, h.2.1 2 (by decide), h.2.2.1 [],
    h.2.2.2 [] [] rfl⟩

/-- Claim C6, counterexample.  The claim says ConnectAndDispatch returns
nil only when Stop was called, and never returns because of transient
connect failures.  With the run flag up throughout (Stop never called)
and 10 consecutive transient connect failures, readMessages returns nil:
the newReader err is shadowed to nil, so the caller cannot even see the
transport error. -/
theorem nil_return_without_stop_counterexample :
    connectAndDispatch true (List.replicate 10 DoOutcome.fail) = none
    ∧ readMessages true (List.replicate 10 DoOutcome.fail)
        = ⟨[[1, 2, 4, 8, 16, 32, 64, 128, 256]], [], [], none, []⟩ := ⟨rfl, rfl⟩

/-- Claim C6, amended.  ConnectAndDispatch returns nil either when the
session was stopped (in which case no connect attempt is consumed) or
when 10 consecutive connect attempts fail and the backoff is exhausted —
so sustained transient failures do surface as a (nil) return after about
8.5 minutes.  A fatal frame with non-zero code is returned as the error
value. -/
theorem connect_and_dispatch_returns (outs : List DoOutcome) :
    (connectAndDispatch false outs = none
      ∧ (readMessages false outs).leftover = outs)
    ∧ (∀ rest : List DoOutcome,
        readMessages true (List.replicate 10 DoOutcome.fail ++ rest)
          = ⟨[[1, 2, 4, 8, 16, 32, 64, 128, 256]], [], [], none, rest⟩)
    ∧ (∀ (g : Nat) (o : RawObj) (n : Int) (tail : List TimedRead)
        (rest : List DoOutcome),
        g < stallTimeout → alookup "code" o = some (Json.num n) → n ≠ 0 →
        connectAndDispatch true (DoOutcome.ok ((g, o) :: tail) :: rest)
          = some ⟨n, getStrField "message" o, getStrField "moreInfo" o⟩) := by
  refine ⟨⟨?_, ?_⟩, ?_, ?_⟩
  · show (readMessages false outs).result = none
    rw [readMessages_stopped]
  · rw [readMessages_stopped]
  · intro rest
    rw [readMessages_def, newReaderLoop_ten_fails]
  · intro g o n tail rest hg hcode hn
    have he := streamUnmarshal_nonzero_code o n hcode hn
    have hconn := processConn_fatal_head g o
      ⟨n, getStrField "message" o, getStrField "moreInfo" o⟩ tail hg he
    show (readMessages true (DoOutcome.ok ((g, o) :: tail) :: rest)).result = _
    rw [readMessages_conn_fatal ((g, o) :: tail) rest _ (by rw [hconn])]

theorem connect_and_dispatch_returns_witness :
    (connectAndDispatch false [DoOutcome.fail] = none
      ∧ (readMessages false [DoOutcome.fail]).leftover = [DoOutcome.fail])
    ∧ readMessages true (List.replicate 10 DoOutcome.fail ++ [DoOutcome.fail])
        = ⟨[[1, 2, 4, 8, 16, 32, 64, 128, 256]], [], [], none, [DoOutcome.fail]⟩
    ∧ (0 < stallTimeout
        ∧ connectAndDispatch true [DoOutcome.ok [(0, [("code", Json.num 1)])]]
            = some ⟨1, "", ""⟩) := by
  have h := connect_and_dispatch_returns [DoOutcome.fail]
  exact ⟨h.1, h.2.1 [DoOutcome.fail], by decide,
    h.2.2 0 [("code", Json.num 1)] 1 [] [] (by decide) rfl (by decide)⟩

/-- Claim C2 (confirmed): a frame whose "code" key holds a non-zero
number — whether it is the first frame after connecting or arrives
mid-stream after a prefix of ordinary data frames — ends the session:
readMessages returns the ApiError built from the frame as the result of
ConnectAndDispatch, and the remaining script is left untouched (no
reconnect attempt).  A "disconnect" frame does not end the session: the
connection is torn down (the cancelled request makes the next decode
fail) and readMessages loops back into a fresh newReader over the rest of
the script — a new connect attempt. -/
theorem fatal_vs_disconnect
    (pre : List TimedRead) (g : Nat) (o : RawObj) (n : Int)
    (tail : List TimedRead) (rest : List DoOutcome)
    (hpre : pre.all isPlainData = true) (hg : g < stallTimeout)
    (hcode : alookup "code" o = some (Json.num n)) (hn : n ≠ 0)
    (pre2 : List TimedRead) (g2 : Nat) (o2 : RawObj) (p2 : Json)
    (tail2 : List TimedRead)
    (hpre2 : pre2.all isPlainData = true) (hg2 : g2 < stallTimeout)
    (hdisc : streamUnmarshal o2 = Except.ok ⟨"disconnect", p2⟩) :
    (connectAndDispatch true (DoOutcome.ok (pre ++ (g, o) :: tail) :: rest)
        = some ⟨n, getStrField "message" o, getStrField "moreInfo" o⟩
      ∧ (readMessages true (DoOutcome.ok (pre ++ (g, o) :: tail) :: rest)).leftover
          = rest)
    ∧ (processConn (pre2 ++ (g2, o2) :: tail2)).connEnd = ConnEnd.brk
    ∧ readMessages true (DoOutcome.ok (pre2 ++ (g2, o2) :: tail2) :: rest)
        = ⟨[] :: (readMessages true rest).sleeps,
            pre2.map decodedMsg ++ (readMessages true rest).dispatched,
            (readMessages true rest).heartbeats,
            (readMessages true rest).result,
            (readMessages true rest).leftover⟩ := by
  have he := streamUnmarshal_nonzero_code o n hcode hn
  have hhead := processConn_fatal_head g o
    ⟨n, getStrField "message" o, getStrField "moreInfo" o⟩ tail hg he
  have hfat : (processConn (pre ++ (g, o) :: tail)).connEnd
      = ConnEnd.fatal ⟨n, getStrField "message" o, getStrField "moreInfo" o⟩ := by
    rw [processConn_plain_append pre ((g, o) :: tail) hpre, hhead]
  have hhead2 := processConn_disconnect_head g2 o2 p2 tail2 hg2 hdisc
  have hbrk : processConn (pre2 ++ (g2, o2) :: tail2)
      = ⟨pre2.map decodedMsg, [], ConnEnd.brk⟩ := by
    rw [processConn_plain_append pre2 ((g2, o2) :: tail2) hpre2, hhead2]
    simp
  refine ⟨⟨?_, ?_⟩, ?_, ?_⟩
  · show (readMessages true (DoOutcome.ok (pre ++ (g, o) :: tail) :: rest)).result = _
    rw [readMessages_conn_fatal _ rest _ hfat]
  · rw [readMessages_conn_fatal _ rest _ hfat]
  · rw [hbrk]
  · rw [readMessages_conn_brk _ rest (by rw [hbrk]), hbrk]
    rfl

theorem fatal_vs_disconnect_witness :
    ([(5, [("tick", Json.obj [("instrument", Json.str "EUR_USD")])])].all
        isPlainData = true
      ∧ 0 < stallTimeout
      ∧ alookup "code" [("code", Json.num 1),
          ("message", Json.str "Invalid instrument")] = some (Json.num 1))
    ∧ (connectAndDispatch true
          (DoOutcome.ok ([(5, [("tick", Json.obj [("instrument", Json.str "EUR_USD")])])]
              ++ (0, [("code", Json.num 1), ("message", Json.str "Invalid instrument")])
                :: []) :: [])
          = some ⟨1, "Invalid instrument", ""⟩
        ∧ (readMessages true
            (DoOutcome.ok ([(5, [("tick", Json.obj [("instrument", Json.str "EUR_USD")])])]
                ++ (0, [("code", Json.num 1), ("message", Json.str "Invalid instrument")])
                  :: []) :: [])).leftover = [])
    ∧ (processConn ([] ++ (0, [("disconnect", Json.obj [])]) :: [])).connEnd
        = ConnEnd.brk
    ∧ readMessages true (DoOutcome.ok ([] ++ (0, [("disconnect", Json.obj [])]) :: []) :: [])
        = ⟨[] :: (readMessages true []).sleeps,
            List.map decodedMsg [] ++ (readMessages true []).dispatched,
            (readMessages true []).heartbeats,
            (readMessages true []).result,
            (readMessages true []).leftover⟩ := by
  have h := fatal_vs_disconnect
    [(5, [("tick", Json.obj [("instrument", Json.str "EUR_USD")])])]
    0 [("code", Json.num 1), ("message", Json.str "Invalid instrument")] 1 [] []
    rfl (by decide) rfl (by decide)
    [] 0 [("disconnect", Json.obj [])] (Json.obj []) [] rfl (by decide) rfl
  exact ⟨⟨rfl, by decide, rfl⟩, h.1, h.2.1, h.2.2⟩

/-- Claim C5, counterexample.  The claim says any frame containing a
top-level "code" key is classified as a fatal-error frame and returned as
a terminal error.  A frame whose code is the number 0 is NOT: part_014
UnmarshalJSON only returns the ApiError when the code is non-zero, so a
zero-code frame falls through to the ordinary kind/payload extraction —
here it decodes as a data frame of kind "code" and is dispatched to msgC
rather than ending the stream. -/
theorem zero_code_frame_counterexample :
    streamUnmarshal [("code", Json.num 0)] = Except.ok ⟨"code", Json.num 0⟩
    ∧ processConn [(0, [("code", Json.num 0)])]
        = ⟨[⟨"code", Json.num 0⟩], [], ConnEnd.brk⟩ := ⟨rfl, rfl⟩

/-- Claim C5, amended.  A frame whose "code" key holds a NON-ZERO number
is classified fatal: the code is extracted together with the "message"
and "moreInfo" fields (their unmarshal errors are ignored, leaving ""),
the decode loop returns the terminal error at once and no further frame
of the connection is read.  A frame whose envelope is a single remaining
top-level key-value pair decodes with that key as its kind and the value
as its payload.  A zero code falls through to the same kind/payload
extraction instead of being fatal. -/
theorem frame_classification (m : RawObj) (n : Int)
    (hcode : alookup "code" m = some (Json.num n)) (hn : n ≠ 0) :
    streamUnmarshal m = Except.error (DecodeErr.api
        ⟨n, getStrField "message" m, getStrField "moreInfo" m⟩)
    ∧ (∀ (g : Nat) (tail : List TimedRead), g < stallTimeout →
        processConn ((g, m) :: tail)
          = ⟨[], [], ConnEnd.fatal ⟨n, getStrField "message" m, getStrField "moreInfo" m⟩⟩)
    ∧ (∀ (k : String) (v : Json), k ≠ "code" →
        streamUnmarshal [(k, v)] = Except.ok ⟨k, v⟩)
    ∧ (∀ m0 : RawObj, alookup "code" m0 = some (Json.num 0) →
        streamUnmarshal m0 = Except.ok (lastBinding m0 ⟨"", Json.null⟩)) := by
  have he := streamUnmarshal_nonzero_code m n hcode hn
  refine ⟨he, ?_, ?_, ?_⟩
  · intro g tail hg
    exact processConn_fatal_head g m _ tail hg he
  · intro k v hk
    unfold streamUnmarshal
    have : alookup "code" [(k, v)] = (none : Option Json) := by
      simp [alookup, hk]
    rw [this]
    rfl
  · intro m0 h0
    unfold streamUnmarshal
    rw [h0]
    simp

theorem frame_classification_witness :
    (alookup "code" [("code", Json.num 7), ("message", Json.str "bad")]
        = some (Json.num 7)
      ∧ (7 : Int) ≠ 0 ∧ 0 < stallTimeout)
    ∧ streamUnmarshal [("code", Json.num 7), ("message", Json.str "bad")]
        = Except.error (DecodeErr.api ⟨7, "bad", ""⟩)
    ∧ processConn [(0, [("code", Json.num 7), ("message", Json.str "bad")])]
        = ⟨[], [], ConnEnd.fatal ⟨7, "bad", ""⟩⟩
    ∧ streamUnmarshal [("tick", Json.null)] = Except.ok ⟨"tick", Json.null⟩
    ∧ streamUnmarshal [("code", Json.num 0)]
        = Except.ok (lastBinding [("code", Json.num 0)] ⟨"", Json.null⟩) := by
  have h := frame_classification [("code", Json.num 7), ("message", Json.str "bad")]
    7 rfl (by decide)
  exact ⟨⟨rfl, by decide, by decide⟩, h.1, h.2.1 0 [] (by decide),
    h.2.2.1 "tick" Json.null (by decide), h.2.2.2 [("code", Json.num 0)] rfl⟩

/-- Claim C8 (confirmed): a read whose gap reaches the stall timeout
(10s) fires the TimedReader timer, which closes the response body; the
pending decode fails, the frames scheduled after the stall are never
decoded, and readMessages loops into a fresh newReader — a reconnect
attempt over the rest of the script.  Because the timer is re-armed with
the full timeout at the start of every read, a connection all of whose
reads individually arrive within the timeout delivers every frame, no
matter how large the total elapsed time grows. -/
theorem stall_recovery
    (pre : List TimedRead) (g : Nat) (o : RawObj) (tail : List TimedRead)
    (rest : List DoOutcome)
    (hpre : pre.all isPlainData = true) (hg : stallTimeout ≤ g) :
    processConn (pre ++ (g, o) :: tail) = ⟨pre.map decodedMsg, [], ConnEnd.brk⟩
    ∧ readMessages true (DoOutcome.ok (pre ++ (g, o) :: tail) :: rest)
        = ⟨[] :: (readMessages true rest).sleeps,
            pre.map decodedMsg ++ (readMessages true rest).dispatched,
            (readMessages true rest).heartbeats,
            (readMessages true rest).result, (readMessages true rest).leftover⟩
    ∧ (∀ reads : List TimedRead, reads.all isPlainData = true →
        processConn reads = ⟨reads.map decodedMsg, [], ConnEnd.brk⟩) := by
  have hstall : processConn (pre ++ (g, o) :: tail)
      = ⟨pre.map decodedMsg, [], ConnEnd.brk⟩ := by
    rw [processConn_plain_append pre ((g, o) :: tail) hpre,
      processConn_stall g o tail hg]
    simp
  refine ⟨hstall, ?_, processConn_plain_all⟩
  rw [readMessages_conn_brk _ rest (by rw [hstall]), hstall]
  rfl

theorem stall_recovery_witness :
    ([(9, [("tick", Json.obj [("instrument", Json.str "EUR_USD")])]),
        (9, [("tick", Json.obj [("instrument", Json.str "EUR_USD")])])].all
        isPlainData = true
      ∧ stallTimeout ≤ 10)
    ∧ processConn ([(9, [("tick", Json.obj [("instrument", Json.str "EUR_USD")])]),
          (9, [("tick", Json.obj [("instrument", Json.str "EUR_USD")])])]
          ++ (10, []) :: [])
        = ⟨List.map decodedMsg
            [(9, [("tick", Json.obj [("instrument", Json.str "EUR_USD")])]),
              (9, [("tick", Json.obj [("instrument", Json.str "EUR_USD")])])],
            [], ConnEnd.brk⟩
    ∧ readMessages true (DoOutcome.ok
          ([(9, [("tick", Json.obj [("instrument", Json.str "EUR_USD")])]),
              (9, [("tick", Json.obj [("instrument", Json.str "EUR_USD")])])]
            ++ (10, []) :: []) :: [])
        = ⟨[] :: (readMessages true []).sleeps,
            List.map decodedMsg
              [(9, [("tick", Json.obj [("instrument", Json.str "EUR_USD")])]),
                (9, [("tick", Json.obj [("instrument", Json.str "EUR_USD")])])]
              ++ (readMessages true []).dispatched,
            (readMessages true []).heartbeats,
            (readMessages true []).result, (readMessages true []).leftover⟩
    ∧ processConn [(9, [("tick", Json.obj [("instrument", Json.str "EUR_USD")])]),
          (9, [("tick", Json.obj [("instrument", Json.str "EUR_USD")])])]
        = ⟨List.map decodedMsg
            [(9, [("tick", Json.obj [("instrument", Json.str "EUR_USD")])]),
              (9, [("tick", Json.obj [("instrument", Json.str "EUR_USD")])])],
            [], ConnEnd.brk⟩ := by
  have h := stall_recovery
    [(9, [("tick", Json.obj [("instrument", Json.str "EUR_USD")])]),
      (9, [("tick", Json.obj [("instrument", Json.str "EUR_USD")])])]
    10 [] [] [] rfl (by decide)
  exact ⟨⟨rfl, by decide⟩, h.1, h.2.1, h.2.2
    [(9, [("tick", Json.obj [("instrument", Json.str "EUR_USD")])]),
      (9, [("tick", Json.obj [("instrument", Json.str "EUR_USD")])])] rfl⟩

/-- Claim C4, counterexample.  The identity ordering of the ten shutdown
events is consistent with every happens-before edge the source
establishes, and in it the delivery of the already-queued message (and
the worker exits) come AFTER ConnectAndDispatch has returned: nothing in
the code joins on the dispatch goroutines, so a user callback can fire
after connectAndHandle returned to its caller. -/
theorem callback_after_return_counterexample :
    validShutdownOrder [0, 1, 2, 3, 4, 5, 6, 7, 8, 9]
    ∧ List.indexOf evCadReturn [0, 1, 2, 3, 4, 5, 6, 7, 8, 9]
        < List.indexOf evDeliver [0, 1, 2, 3, 4, 5, 6, 7, 8, 9]
    ∧ List.indexOf evCadReturn [0, 1, 2, 3, 4, 5, 6, 7, 8, 9]
        < List.indexOf evWorkerExit [0, 1, 2, 3, 4, 5, 6, 7, 8, 9] := by
  refine ⟨⟨?_, ?_⟩, ?_, ?_⟩ <;> decide

/-- Claim C4, amended.  After Stop, no reconnection is attempted and
nothing further is dispatched (a stopped readMessages returns at once,
leaving the script untouched).  In every execution consistent with the
code's synchronisation: Stop precedes ConnectAndDispatch's return, a
queued message is delivered only after it was enqueued, and each worker
exits only after delivering its queued messages and after its channel is
closed.  But ConnectAndDispatch does not wait for the workers, so the
delivery of messages already queued at stop time is NOT ordered before
its return: callbacks can still fire afterwards. -/
theorem graceful_stop_behaviour :
    (∀ outs : List DoOutcome, readMessages false outs = ⟨[[]], [], [], none, outs⟩)
    ∧ (∀ l : List Nat, validShutdownOrder l →
        l.indexOf evStop < l.indexOf evCadReturn
        ∧ l.indexOf evEnqueue < l.indexOf evDeliver
        ∧ l.indexOf evDeliver < l.indexOf evWorkerExit
        ∧ l.indexOf evCloseEvtC < l.indexOf evWorkerExit) := by
  constructor
  · exact readMessages_stopped
  · intro l hl
    have h1 := hl.2 (evStop, evCloseMsgC) (by decide)
    have h2 := hl.2 (evCloseMsgC, evCadReturn) (by decide)
    have h3 := hl.2 (evEnqueue, evDeliver) (by decide)
    have h4 := hl.2 (evDeliver, evWorkerExit) (by decide)
    have h5 := hl.2 (evCloseEvtC, evWorkerExit) (by decide)
    exact ⟨Nat.lt_trans h1 h2, h3, h4, h5⟩

theorem graceful_stop_behaviour_witness :
    validShutdownOrder [0, 1, 2, 3, 4, 5, 6, 7, 8, 9]
    ∧ readMessages false [DoOutcome.fail] = ⟨[[]], [], [], none, [DoOutcome.fail]⟩
    ∧ ([0, 1, 2, 3, 4, 5, 6, 7, 8, 9].indexOf evStop
          < [0, 1, 2, 3, 4, 5, 6, 7, 8, 9].indexOf evCadReturn
        ∧ [0, 1, 2, 3, 4, 5, 6, 7, 8, 9].indexOf evEnqueue
          < [0, 1, 2, 3, 4, 5, 6, 7, 8, 9].indexOf evDeliver
        ∧ [0, 1, 2, 3, 4, 5, 6, 7, 8, 9].indexOf evDeliver
          < [0, 1, 2, 3, 4, 5, 6, 7, 8, 9].indexOf evWorkerExit
        ∧ [0, 1, 2, 3, 4, 5, 6, 7, 8, 9].indexOf evCloseEvtC
          < [0, 1, 2, 3, 4, 5, 6, 7, 8, 9].indexOf evWorkerExit) := by
  refine ⟨by decide, graceful_stop_behaviour.1 [DoOutcome.fail],
    graceful_stop_behaviour.2 [0, 1, 2, 3, 4, 5, 6, 7, 8, 9] (by decide)⟩

/-- Claim C9 (confirmed): because Instruments() and AccountIds() build
their result with make([]T, len(m)) followed by append, the returned
slice has length 2N: N zero values (empty string, or 0) followed by the N
registered keys.  initServer then loops over that slice, so it also
creates a queue (and spawns a worker) under the zero-value key — and it
spawns 2N workers in total. -/
theorem accessor_padding (em : EventChans) (tm : TickChans) :
    eventChansAccountIds em = List.replicate em.length 0 ++ em.map Prod.fst
    ∧ (eventChansAccountIds em).length = 2 * em.length
    ∧ tickChansInstruments tm = List.replicate tm.length "" ++ tm.map Prod.fst
    ∧ (tickChansInstruments tm).length = 2 * tm.length
    ∧ (0 < em.length → alookup 0 (eventInitServer em).1 = some (some []))
    ∧ (0 < tm.length → alookup "" (pricesInitServer tm).1 = some (some []))
    ∧ (eventInitServer em).2 = 2 * em.length
    ∧ (pricesInitServer tm).2 = 2 * tm.length := by
  have hev : eventChansAccountIds em
      = List.replicate em.length 0 ++ em.map Prod.fst := by
    unfold eventChansAccountIds goMake
    exact foldl_append_singleton Prod.fst em (List.replicate em.length 0)
  have htk : tickChansInstruments tm
      = List.replicate tm.length "" ++ tm.map Prod.fst := by
    unfold tickChansInstruments goMake
    exact foldl_append_singleton Prod.fst tm (List.replicate tm.length "")
  have hevlen : (eventChansAccountIds em).length = 2 * em.length := by
    rw [hev]; simp; omega
  have htklen : (tickChansInstruments tm).length = 2 * tm.length := by
    rw [htk]; simp; omega
  refine ⟨hev, hevlen, htk, htklen, ?_, ?_, hevlen, htklen⟩
  · intro hpos
    have hmem : (0 : Int) ∈ eventChansAccountIds em := by
      rw [hev]
      apply List.mem_append_left
      exact List.mem_replicate.mpr ⟨by omega, rfl⟩
    exact alookup_foldl_aset_mem (some []) (eventChansAccountIds em) em 0 hmem
  · intro hpos
    have hmem : "" ∈ tickChansInstruments tm := by
      rw [htk]
      apply List.mem_append_left
      exact List.mem_replicate.mpr ⟨by omega, rfl⟩
    exact alookup_foldl_aset_mem (some []) (tickChansInstruments tm) tm "" hmem

theorem accessor_padding_witness :
    eventChansAccountIds [((7 : Int), (none : Option (List Json)))] = [0, 7]
    ∧ (eventChansAccountIds [((7 : Int), (none : Option (List Json)))]).length = 2
    ∧ tickChansInstruments [("EUR_USD", (none : Option (List Json)))] = ["", "EUR_USD"]
    ∧ (0 < (1 : Nat)
        ∧ alookup 0 (eventInitServer [((7 : Int), (none : Option (List Json)))]).1
            = some (some [])
        ∧ alookup "" (pricesInitServer [("EUR_USD", (none : Option (List Json)))]).1
            = some (some [])) := by
  have h := accessor_padding [((7 : Int), (none : Option (List Json)))]
    [("EUR_USD", (none : Option (List Json)))]
  exact ⟨h.1, h.2.1, h.2.2.1,
    ⟨by decide, h.2.2.2.2.1 (by decide), h.2.2.2.2.2.1 (by decide)⟩⟩

/-- Claim C10, counterexample.  The claim says any decoded map containing
a "code" key makes the error-aware Decode return a non-nil *ApiError.
For the object with code 5 and no "message" key, apiErrorFromMap instead
returns the json.Unmarshal failure of the missing field (unmarshalling a
nil RawMessage fails) — a non-nil error that is NOT a *ApiError — and
the dispatch loop therefore treats the frame as a transport failure (it
returns nil and reconnects) rather than as fatal. -/
theorem code_without_message_counterexample :
    apiErrorFromMap [("code", Json.num 5)] = MapDecodeRes.otherErr
    ∧ runDispatchStep [("code", Json.num 5)] = LoopStep.transportBreak := ⟨rfl, rfl⟩

/-- Claim C10, amended.  Any decoded map containing a "code" key makes
Decode return SOME non-nil error.  When the code value is the number 0
that error is always a non-nil *ApiError with Code 0 (message and
moreInfo are not even read), so the dispatch loop stops the server and
returns it — every zero-code frame is fatal.  When the code is non-zero
the error is the *ApiError only if "message" and "moreInfo" are present
as strings; otherwise it is a plain unmarshal error, which the dispatch
loop treats as a transport failure. -/
theorem decoder_code_key (m : RawObj) (v : Json)
    (hv : alookup "code" m = some v) :
    apiErrorFromMap m ≠ MapDecodeRes.noErr
    ∧ (v = Json.num 0 →
        apiErrorFromMap m = MapDecodeRes.apiErr ⟨0, "", ""⟩
        ∧ runDispatchStep m = LoopStep.fatalStop ⟨0, "", ""⟩)
    ∧ (∀ (n : Int) (s t : String), v = Json.num n → n ≠ 0 →
        alookup "message" m = some (Json.str s) →
        alookup "moreInfo" m = some (Json.str t) →
        apiErrorFromMap m = MapDecodeRes.apiErr ⟨n, s, t⟩
        ∧ runDispatchStep m = LoopStep.fatalStop ⟨n, s, t⟩) := by
  have hnum : ∀ n : Int, alookup "code" m = some (Json.num n) →
      apiErrorFromMap m =
        (if n ≠ 0 then
          (match unmarshalStrField (alookup "message" m) with
            | none => MapDecodeRes.otherErr
            | some s =>
                match unmarshalStrField (alookup "moreInfo" m) with
                | none => MapDecodeRes.otherErr
                | some t => MapDecodeRes.apiErr ⟨n, s, t⟩)
        else MapDecodeRes.apiErr ⟨0, "", ""⟩) := by
    intro n hvn
    unfold apiErrorFromMap
    rw [hvn]
  refine ⟨?_, ?_, ?_⟩
  · cases v with
    | null =>
        have h1 : apiErrorFromMap m = MapDecodeRes.otherErr := by
          unfold apiErrorFromMap; rw [hv]
        rw [h1]; simp
    | str s =>
        have h1 : apiErrorFromMap m = MapDecodeRes.otherErr := by
          unfold apiErrorFromMap; rw [hv]
        rw [h1]; simp
    | obj fs =>
        have h1 : apiErrorFromMap m = MapDecodeRes.otherErr := by
          unfold apiErrorFromMap; rw [hv]
        rw [h1]; simp
    | num n =>
        rw [hnum n hv]
        by_cases hn : n = 0
        · subst hn
          rw [if_neg (by simp)]
          simp
        · rw [if_pos hn]
          cases unmarshalStrField (alookup "message" m) with
          | none => simp
          | some s =>
              cases unmarshalStrField (alookup "moreInfo" m) with
              | none => simp
              | some t => simp
  · intro hv0
    subst hv0
    have h1 : apiErrorFromMap m = MapDecodeRes.apiErr ⟨0, "", ""⟩ := by
      rw [hnum 0 hv, if_neg (by simp)]
    exact ⟨h1, by unfold runDispatchStep; rw [h1]⟩
  · intro n s t hvn hn hmsg hmore
    subst hvn
    have h1 : apiErrorFromMap m = MapDecodeRes.apiErr ⟨n, s, t⟩ := by
      rw [hnum n hv, if_pos hn]
      unfold unmarshalStrField
      rw [hmsg, hmore]
    exact ⟨h1, by unfold runDispatchStep; rw [h1]⟩

theorem decoder_code_key_witness :
    alookup "code" [("code", Json.num 0)] = some (Json.num 0)
    ∧ apiErrorFromMap [("code", Json.num 0)] ≠ MapDecodeRes.noErr
    ∧ (apiErrorFromMap [("code", Json.num 0)] = MapDecodeRes.apiErr ⟨0, "", ""⟩
        ∧ runDispatchStep [("code", Json.num 0)] = LoopStep.fatalStop ⟨0, "", ""⟩)
    ∧ (apiErrorFromMap [("code", Json.num 9), ("message", Json.str "m"),
          ("moreInfo", Json.str "i")] = MapDecodeRes.apiErr ⟨9, "m", "i"⟩
        ∧ runDispatchStep [("code", Json.num 9), ("message", Json.str "m"),
            ("moreInfo", Json.str "i")] = LoopStep.fatalStop ⟨9, "m", "i"⟩) := by
  have h0 := decoder_code_key [("code", Json.num 0)] (Json.num 0) rfl
  have h9 := decoder_code_key [("code", Json.num 9), ("message", Json.str "m"),
    ("moreInfo", Json.str "i")] (Json.num 9) rfl
  exact ⟨rfl, h0.1, h0.2.1 rfl,
    h9.2.2 9 "m" "i" rfl (by decide) rfl rfl⟩

end Oanda


